import Mathlib

/-!
Verification of the jaco Japanese-text normalization toolkit.

The source program (src/src/jaco.ts and src/fn) stores one JavaScript string per
wrapper instance and transforms it with literal global regular-expression
replacements, fixed substitution tables and code-point shifts.  A JavaScript
string is a sequence of UTF-16 code units, so the model used throughout this
file is `List Nat`, one entry per 16-bit code unit.  Transformations are
translated from the source one for one: a global replacement of a literal key
becomes `replaceAll`, an object-literal substitution map becomes an ordered
`List (List Nat × List Nat)` folded with `replaceFromMap` (JavaScript for-in
iteration order over string keys is insertion order), and the private `_shift`
method becomes `shiftStr`.
-/

set_option maxRecDepth 40000

/-- A JavaScript string: its list of UTF-16 code units. -/
abbrev JStr := List Nat

/-- A code unit in the high-surrogate range U+D800 to U+DBFF. -/
def isHighSurrogate (c : Nat) : Bool := 0xD800 ≤ c && c ≤ 0xDBFF

/-- A code unit in the low-surrogate range U+DC00 to U+DFFF. -/
def isLowSurrogate (c : Nat) : Bool := 0xDC00 ≤ c && c ≤ 0xDFFF

/--
The private method `_toArray` of jaco.ts: the list of all matches of the global
pattern that takes either a high surrogate directly followed by a low surrogate,
or any single code unit outside the surrogate range.  A match consumes its code
units; a code unit at which neither alternative matches (a lone surrogate) is
stepped over by the scan and appears in no match.
-/
def jsToArray : JStr → List JStr
  | [] => []
  | [c] => if !isHighSurrogate c && !isLowSurrogate c then [[c]] else []
  | c :: d :: rest =>
    if isHighSurrogate c then
      if isLowSurrogate d then [c, d] :: jsToArray rest
      else jsToArray (d :: rest)
    else if isLowSurrogate c then jsToArray (d :: rest)
    else [c] :: jsToArray (d :: rest)

/-- The `size` method of jaco.ts: the native code-unit count of the buffer. -/
def sizeJ (s : JStr) : Nat := s.length

/-- The `length` getter of jaco.ts: the element count of `_toArray`. -/
def lengthJ (s : JStr) : Nat := (jsToArray s).length

/--
A UTF-16 code-unit sequence with no lone surrogate: every high surrogate is
directly followed by a low surrogate and every low surrogate is part of such a
pair.
-/
def wellFormedUtf16 : JStr → Bool
  | [] => true
  | [c] => !isHighSurrogate c && !isLowSurrogate c
  | c :: d :: rest =>
    if isHighSurrogate c then isLowSurrogate d && wellFormedUtf16 rest
    else !isLowSurrogate c && wellFormedUtf16 (d :: rest)

/--
One pass of a JavaScript global replacement of the nonempty literal `key` by
`val`: scan left to right, replace each non-overlapping occurrence of `key`,
and continue after the consumed occurrence.  The fuel argument bounds the scan
and is instantiated with the length of the scanned string, which one-step
progress never exhausts; it only makes the recursion structural.
-/
def replaceAllAux (key val : JStr) : Nat → JStr → JStr
  | 0, s => s
  | _ + 1, [] => []
  | fuel + 1, c :: rest =>
    if !key.isEmpty && key.isPrefixOf (c :: rest) then
      val ++ replaceAllAux key val fuel (List.drop (key.length - 1) rest)
    else
      c :: replaceAllAux key val fuel rest

/-- JavaScript `str.replace(new RegExp(escape(key), "g"), val)` for a literal key. -/
def replaceAll (key val s : JStr) : JStr := replaceAllAux key val s.length s

/--
The `replaceFromMap` method of jaco.ts: apply each key-value replacement of the
map, as a global literal replacement, to the then-current buffer, in the map's
iteration order (insertion order of the object literal).
-/
def replaceFromMap (convMap : List (JStr × JStr)) (s : JStr) : JStr :=
  convMap.foldl (fun acc kv => replaceAll kv.1 kv.2 acc) s

/-- Clamp a signed slice index into the range 0 to `len`, counting a negative index from the end, as ECMAScript `String.prototype.slice` does. -/
def jsClampIndex (len : Nat) (i : Int) : Nat :=
  if i < 0 then ((len : Int) + i).toNat else min i.toNat len

/-- ECMAScript `String.prototype.slice` over code units; a missing second argument means the end of the string. -/
def jsStringSlice (s : JStr) (start : Int) (stop : Option Int) : JStr :=
  let f := jsClampIndex s.length start
  let t := jsClampIndex s.length (stop.getD (s.length : Int))
  (s.drop f).take (t - f)

/--
The `substr` method of jaco.ts, translated from the source body
`new Jaco(this.$.slice(start, length))`: the second parameter is handed to
`slice`, which treats it as an end index.
-/
def substr (s : JStr) (start : Int) (length? : Option Int) : JStr :=
  jsStringSlice s start length?

/--
Modelled from the spec: `substr(start, length)` per the specified contract,
giving the substring that begins at the start position and contains at most
`length` characters (start position plus optional count semantics).  This
definition exists only to be compared with `substr` above, which is translated
from the source.
-/
def substrSpec (s : JStr) (start : Int) (length? : Option Int) : JStr :=
  match length? with
  | none => jsStringSlice s start none
  | some n => (jsStringSlice s start none).take n.toNat

/--
The text before the first occurrence of the nonempty literal `needle`, which is
what `str.split(needle)[0]` evaluates to; the whole string when `needle` occurs
nowhere in it.
-/
def beforeFirst (needle : JStr) : JStr → JStr
  | [] => []
  | c :: rest =>
    if needle.isPrefixOf (c :: rest) then [] else c :: beforeFirst needle rest

/--
The `search` method of jaco.ts for a nonempty literal searcher: split the
buffer on the searcher, take the piece before the first match (the whole buffer
when there is no match), and return its array-ized length.
-/
def search (needle s : JStr) : Nat :=
  lengthJ (beforeFirst needle s)

/--
ECMAScript `Array.prototype.indexOf` with a non-negative start position:
the first index at or after `fromIndex` whose element equals `x`, and -1 when
no element does.
-/
def jsArrayIndexOf (l : List JStr) (x : JStr) (fromIndex : Nat) : Int :=
  match (l.drop fromIndex).findIdx? (fun e => e == x) with
  | some i => ((i + fromIndex : Nat) : Int)
  | none => -1

/--
The `indexOf` method of jaco.ts, translated from the source body
`this._toArray().indexOf(str.toString(), fromIndex)`: the search string is
compared against single array-ized characters by `Array.prototype.indexOf`.
-/
def indexOf (s str : JStr) (fromIndex : Nat) : Int :=
  jsArrayIndexOf (jsToArray s) str fromIndex

/--
The free function fn/indexOf.js, translated from its source.  Its helpers are
not under src: fn slice is modelled from the spec as the wrapper's slice over
code units, fn split's first piece as `beforeFirst`, fn is as string equality
and util/arrayize as the array-izer, each per its section of the spec.  The
comparison `is(str, splited)` uses the whole original string, as the source
does.
-/
def fnIndexOf (str searchStr : JStr) (fromIndex : Nat) : Int :=
  let sliced := jsStringSlice str (fromIndex : Int) none
  let splited := beforeFirst searchStr sliced
  if str == splited then -1
  else ((lengthJ splited + fromIndex : Nat) : Int)

/--
The `isOnly` method of jaco.ts: a fresh test of the pattern built as the
character class of the argument, repeated at least once between the anchors,
with the global and multiline flags.  With the multiline flag the anchors match
at line boundaries, so the test succeeds exactly when some line (delimited by
U+000A; the supplied character sets contain no line terminator) is nonempty and
consists only of characters of the class.  The class is modelled as the
membership predicate `C`.
-/
def isOnly (C : Nat → Bool) (s : JStr) : Bool :=
  (s.splitOn 0x0A).any (fun line => !line.isEmpty && line.all C)

/--
Modelled from the spec: the HIRAGANA_CHARS character-class constant, whose
defining file is not under src.  Per the spec it covers the hiragana block
U+3041 to U+3096, the standalone combining and spacing voicing marks U+3099 to
U+309C, and (since the separate ignore-iteration-marks variant is described as
this class minus the iteration marks) the iteration marks U+309D and U+309E.
-/
def inHiraganaClass (c : Nat) : Bool :=
  (0x3041 ≤ c && c ≤ 0x3096) || (0x3099 ≤ c && c ≤ 0x309E)

/--
Modelled from the spec: the KATAKANA_CHARS character-class constant, whose
defining file is not under src.  Per the spec it covers U+30A1 to U+30FA and
U+30FD to U+30FF, excluding the middle dot and the prolonged sound mark.
-/
def inKatakanaClass (c : Nat) : Bool :=
  (0x30A1 ≤ c && c ≤ 0x30FA) || (0x30FD ≤ c && c ≤ 0x30FF)

/--
The private `_shift` method of jaco.ts applied to one code unit: a character of
the class moves by the signed offset, put back through the 16-bit truncation of
`String.fromCharCode`; any other character is unchanged.
-/
def shiftChar (inClass : Nat → Bool) (shiftNum : Int) (c : Nat) : Nat :=
  if inClass c then (((c : Int) + shiftNum).emod 65536).toNat else c

/-- The private `_shift` method of jaco.ts over a whole string: the pattern built by toPattern is global, so every class character shifts. -/
def shiftStr (inClass : Nat → Bool) (shiftNum : Int) (s : JStr) : JStr :=
  s.map (shiftChar inClass shiftNum)
/-- Substitution table of toWideKatakana (jaco.ts), in the source object-literal order: voiced and semi-voiced digraphs first, then single narrow katakana. -/
def toWideKatakanaMap : List (List Nat × List Nat) := [
  ([0xFF76, 0xFF9E], [0x30AC]),
  ([0xFF77, 0xFF9E], [0x30AE]),
  ([0xFF78, 0xFF9E], [0x30B0]),
  ([0xFF79, 0xFF9E], [0x30B2]),
  ([0xFF7A, 0xFF9E], [0x30B4]),
  ([0xFF7B, 0xFF9E], [0x30B6]),
  ([0xFF7C, 0xFF9E], [0x30B8]),
  ([0xFF7D, 0xFF9E], [0x30BA]),
  ([0xFF7E, 0xFF9E], [0x30BC]),
  ([0xFF7F, 0xFF9E], [0x30BE]),
  ([0xFF80, 0xFF9E], [0x30C0]),
  ([0xFF81, 0xFF9E], [0x30C2]),
  ([0xFF82, 0xFF9E], [0x30C5]),
  ([0xFF83, 0xFF9E], [0x30C7]),
  ([0xFF84, 0xFF9E], [0x30C9]),
  ([0xFF8A, 0xFF9E], [0x30D0]),
  ([0xFF8B, 0xFF9E], [0x30D3]),
  ([0xFF8C, 0xFF9E], [0x30D6]),
  ([0xFF8D, 0xFF9E], [0x30D9]),
  ([0xFF8E, 0xFF9E], [0x30DC]),
  ([0xFF8A, 0xFF9F], [0x30D1]),
  ([0xFF8B, 0xFF9F], [0x30D4]),
  ([0xFF8C, 0xFF9F], [0x30D7]),
  ([0xFF8D, 0xFF9F], [0x30DA]),
  ([0xFF8E, 0xFF9F], [0x30DD]),
  ([0xFF9C, 0xFF9E], [0x30F7]),
  ([0xFF72, 0xFF9E], [0x30F8]),
  ([0xFF73, 0xFF9E], [0x30F4]),
  ([0xFF74, 0xFF9E], [0x30F9]),
  ([0xFF66, 0xFF9E], [0x30FA]),
  ([0xFF9E], [0x309B]),
  ([0xFF9F], [0x309C]),
  ([0xFF67], [0x30A1]),
  ([0xFF68], [0x30A3]),
  ([0xFF69], [0x30A5]),
  ([0xFF6A], [0x30A7]),
  ([0xFF6B], [0x30A9]),
  ([0xFF6C], [0x30E3]),
  ([0xFF6D], [0x30E5]),
  ([0xFF6E], [0x30E7]),
  ([0xFF6F], [0x30C3]),
  ([0xFF70], [0x30FC]),
  ([0xFF71], [0x30A2]),
  ([0xFF72], [0x30A4]),
  ([0xFF73], [0x30A6]),
  ([0xFF74], [0x30A8]),
  ([0xFF75], [0x30AA]),
  ([0xFF76], [0x30AB]),
  ([0xFF77], [0x30AD]),
  ([0xFF78], [0x30AF]),
  ([0xFF79], [0x30B1]),
  ([0xFF7A], [0x30B3]),
  ([0xFF7B], [0x30B5]),
  ([0xFF7C], [0x30B7]),
  ([0xFF7D], [0x30B9]),
  ([0xFF7E], [0x30BB]),
  ([0xFF7F], [0x30BD]),
  ([0xFF80], [0x30BF]),
  ([0xFF81], [0x30C1]),
  ([0xFF82], [0x30C4]),
  ([0xFF83], [0x30C6]),
  ([0xFF84], [0x30C8]),
  ([0xFF85], [0x30CA]),
  ([0xFF86], [0x30CB]),
  ([0xFF87], [0x30CC]),
  ([0xFF88], [0x30CD]),
  ([0xFF89], [0x30CE]),
  ([0xFF8A], [0x30CF]),
  ([0xFF8B], [0x30D2]),
  ([0xFF8C], [0x30D5]),
  ([0xFF8D], [0x30D8]),
  ([0xFF8E], [0x30DB]),
  ([0xFF8F], [0x30DE]),
  ([0xFF90], [0x30DF]),
  ([0xFF91], [0x30E0]),
  ([0xFF92], [0x30E1]),
  ([0xFF93], [0x30E2]),
  ([0xFF94], [0x30E4]),
  ([0xFF95], [0x30E6]),
  ([0xFF96], [0x30E8]),
  ([0xFF97], [0x30E9]),
  ([0xFF98], [0x30EA]),
  ([0xFF99], [0x30EB]),
  ([0xFF9A], [0x30EC]),
  ([0xFF9B], [0x30ED]),
  ([0xFF9C], [0x30EF]),
  ([0xFF66], [0x30F2]),
  ([0xFF9D], [0x30F3])
]

/-- Substitution table of toNarrowKatakana (jaco.ts), in the source object-literal order: single wide katakana first, then precomposed voiced and semi-voiced characters mapping to narrow digraphs. -/
def toNarrowKatakanaMap : List (List Nat × List Nat) := [
  ([0x30A1], [0xFF67]),
  ([0x30A3], [0xFF68]),
  ([0x30A5], [0xFF69]),
  ([0x30A7], [0xFF6A]),
  ([0x30A9], [0xFF6B]),
  ([0x30E3], [0xFF6C]),
  ([0x30E5], [0xFF6D]),
  ([0x30E7], [0xFF6E]),
  ([0x30C3], [0xFF6F]),
  ([0x30F5], [0xFF76]),
  ([0x30F6], [0xFF79]),
  ([0x30EE], [0xFF9C]),
  ([0x30FC], [0xFF70]),
  ([0x30A2], [0xFF71]),
  ([0x30A4], [0xFF72]),
  ([0x30A6], [0xFF73]),
  ([0x30A8], [0xFF74]),
  ([0x30AA], [0xFF75]),
  ([0x30AB], [0xFF76]),
  ([0x30AD], [0xFF77]),
  ([0x30AF], [0xFF78]),
  ([0x30B1], [0xFF79]),
  ([0x30B3], [0xFF7A]),
  ([0x30B5], [0xFF7B]),
  ([0x30B7], [0xFF7C]),
  ([0x30B9], [0xFF7D]),
  ([0x30BB], [0xFF7E]),
  ([0x30BD], [0xFF7F]),
  ([0x30BF], [0xFF80]),
  ([0x30C1], [0xFF81]),
  ([0x30C4], [0xFF82]),
  ([0x30C6], [0xFF83]),
  ([0x30C8], [0xFF84]),
  ([0x30CA], [0xFF85]),
  ([0x30CB], [0xFF86]),
  ([0x30CC], [0xFF87]),
  ([0x30CD], [0xFF88]),
  ([0x30CE], [0xFF89]),
  ([0x30CF], [0xFF8A]),
  ([0x30D2], [0xFF8B]),
  ([0x30D5], [0xFF8C]),
  ([0x30D8], [0xFF8D]),
  ([0x30DB], [0xFF8E]),
  ([0x30DE], [0xFF8F]),
  ([0x30DF], [0xFF90]),
  ([0x30E0], [0xFF91]),
  ([0x30E1], [0xFF92]),
  ([0x30E2], [0xFF93]),
  ([0x30E4], [0xFF94]),
  ([0x30E6], [0xFF95]),
  ([0x30E8], [0xFF96]),
  ([0x30E9], [0xFF97]),
  ([0x30EA], [0xFF98]),
  ([0x30EB], [0xFF99]),
  ([0x30EC], [0xFF9A]),
  ([0x30ED], [0xFF9B]),
  ([0x30EF], [0xFF9C]),
  ([0x30F3], [0xFF9D]),
  ([0x30F0], [0xFF72]),
  ([0x30F1], [0xFF74]),
  ([0x30F2], [0xFF66]),
  ([0x30AC], [0xFF76, 0xFF9E]),
  ([0x30AE], [0xFF77, 0xFF9E]),
  ([0x30B0], [0xFF78, 0xFF9E]),
  ([0x30B2], [0xFF79, 0xFF9E]),
  ([0x30B4], [0xFF7A, 0xFF9E]),
  ([0x30B6], [0xFF7B, 0xFF9E]),
  ([0x30B8], [0xFF7C, 0xFF9E]),
  ([0x30BA], [0xFF7D, 0xFF9E]),
  ([0x30BC], [0xFF7E, 0xFF9E]),
  ([0x30BE], [0xFF7F, 0xFF9E]),
  ([0x30C0], [0xFF80, 0xFF9E]),
  ([0x30C2], [0xFF81, 0xFF9E]),
  ([0x30C5], [0xFF82, 0xFF9E]),
  ([0x30C7], [0xFF83, 0xFF9E]),
  ([0x30C9], [0xFF84, 0xFF9E]),
  ([0x30D0], [0xFF8A, 0xFF9E]),
  ([0x30D3], [0xFF8B, 0xFF9E]),
  ([0x30D6], [0xFF8C, 0xFF9E]),
  ([0x30D9], [0xFF8D, 0xFF9E]),
  ([0x30DC], [0xFF8E, 0xFF9E]),
  ([0x30D1], [0xFF8A, 0xFF9F]),
  ([0x30D4], [0xFF8B, 0xFF9F]),
  ([0x30D7], [0xFF8C, 0xFF9F]),
  ([0x30DA], [0xFF8D, 0xFF9F]),
  ([0x30DD], [0xFF8E, 0xFF9F]),
  ([0x30F7], [0xFF9C, 0xFF9E]),
  ([0x30F8], [0xFF72, 0xFF9E]),
  ([0x30F4], [0xFF73, 0xFF9E]),
  ([0x30F9], [0xFF74, 0xFF9E]),
  ([0x30FA], [0xFF66, 0xFF9E])
]

/-- Substitution table of combinateSoundMarks (jaco.ts): base kana followed by a combining mark U+3099 or U+309A maps to the precomposed character, in source order. The source contains the reversed entry for U+30FA followed by U+3099 exactly as written. -/
def soundMarkCombinationMap : List (List Nat × List Nat) := [
  ([0x304B, 0x3099], [0x304C]),
  ([0x304D, 0x3099], [0x304E]),
  ([0x304F, 0x3099], [0x3050]),
  ([0x3051, 0x3099], [0x3052]),
  ([0x3053, 0x3099], [0x3054]),
  ([0x3055, 0x3099], [0x3056]),
  ([0x3057, 0x3099], [0x3058]),
  ([0x3059, 0x3099], [0x305A]),
  ([0x305B, 0x3099], [0x305C]),
  ([0x305D, 0x3099], [0x305E]),
  ([0x305F, 0x3099], [0x3060]),
  ([0x3061, 0x3099], [0x3062]),
  ([0x3064, 0x3099], [0x3065]),
  ([0x3066, 0x3099], [0x3067]),
  ([0x3068, 0x3099], [0x3069]),
  ([0x306F, 0x3099], [0x3070]),
  ([0x3072, 0x3099], [0x3073]),
  ([0x3075, 0x3099], [0x3076]),
  ([0x3078, 0x3099], [0x3079]),
  ([0x307B, 0x3099], [0x307C]),
  ([0x30AB, 0x3099], [0x30AC]),
  ([0x30AD, 0x3099], [0x30AE]),
  ([0x30AF, 0x3099], [0x30B0]),
  ([0x30B1, 0x3099], [0x30B2]),
  ([0x30B3, 0x3099], [0x30B4]),
  ([0x30B5, 0x3099], [0x30B6]),
  ([0x30B7, 0x3099], [0x30B8]),
  ([0x30B9, 0x3099], [0x30BA]),
  ([0x30BB, 0x3099], [0x30BC]),
  ([0x30BD, 0x3099], [0x30BE]),
  ([0x30BF, 0x3099], [0x30C0]),
  ([0x30C1, 0x3099], [0x30C2]),
  ([0x30C4, 0x3099], [0x30C5]),
  ([0x30C6, 0x3099], [0x30C7]),
  ([0x30C8, 0x3099], [0x30C9]),
  ([0x30CF, 0x3099], [0x30D0]),
  ([0x30D2, 0x3099], [0x30D3]),
  ([0x30D5, 0x3099], [0x30D6]),
  ([0x30D8, 0x3099], [0x30D9]),
  ([0x30DB, 0x3099], [0x30DC]),
  ([0x30EF, 0x3099], [0x30F7]),
  ([0x30A4, 0x3099], [0x30F8]),
  ([0x30A6, 0x3099], [0x30F4]),
  ([0x30A8, 0x3099], [0x30F9]),
  ([0x30FA, 0x3099], [0x30F2]),
  ([0x309D, 0x3099], [0x309E]),
  ([0x30FD, 0x3099], [0x30FE]),
  ([0x306F, 0x309A], [0x3071]),
  ([0x3072, 0x309A], [0x3074]),
  ([0x3075, 0x309A], [0x3077]),
  ([0x3078, 0x309A], [0x307A]),
  ([0x307B, 0x309A], [0x307D]),
  ([0x30CF, 0x309A], [0x30D1]),
  ([0x30D2, 0x309A], [0x30D4]),
  ([0x30D5, 0x309A], [0x30D7]),
  ([0x30D8, 0x309A], [0x30DA]),
  ([0x30DB, 0x309A], [0x30DD])
]

/-- Substitution table of the isConvertCombiningSoundMarks branch of combinateSoundMarks (jaco.ts): spacing voicing marks U+309B and U+309C map to combining marks U+3099 and U+309A. -/
def spacingToCombiningMap : List (List Nat × List Nat) := [
  ([0x309B], [0x3099]),
  ([0x309C], [0x309A])
]

/-- Substitution table used by toHiragana (jaco.ts): the four voiced katakana with no hiragana codepoint analog map to base hiragana followed by the spacing voiced mark U+309B. -/
def archaicVoicedKatakanaMap : List (List Nat × List Nat) := [
  ([0x30F7], [0x308F, 0x309B]),
  ([0x30F8], [0x3090, 0x309B]),
  ([0x30F9], [0x3091, 0x309B]),
  ([0x30FA], [0x3092, 0x309B])
]

/-- Substitution table of addVoicedMarks (jaco.ts), in source order. The last entry of the wa row is written U+30FA to U+30F2 in the source, exactly as reproduced here. -/
def addVoicedMarksMap : List (List Nat × List Nat) := [
  ([0x304B], [0x304C]),
  ([0x304D], [0x304E]),
  ([0x304F], [0x3050]),
  ([0x3051], [0x3052]),
  ([0x3053], [0x3054]),
  ([0x3055], [0x3056]),
  ([0x3057], [0x3058]),
  ([0x3059], [0x305A]),
  ([0x305B], [0x305C]),
  ([0x305D], [0x305E]),
  ([0x305F], [0x3060]),
  ([0x3061], [0x3062]),
  ([0x3064], [0x3065]),
  ([0x3066], [0x3067]),
  ([0x3068], [0x3069]),
  ([0x306F], [0x3070]),
  ([0x3072], [0x3073]),
  ([0x3075], [0x3076]),
  ([0x3078], [0x3079]),
  ([0x307B], [0x307C]),
  ([0x30AB], [0x30AC]),
  ([0x30AD], [0x30AE]),
  ([0x30AF], [0x30B0]),
  ([0x30B1], [0x30B2]),
  ([0x30B3], [0x30B4]),
  ([0x30B5], [0x30B6]),
  ([0x30B7], [0x30B8]),
  ([0x30B9], [0x30BA]),
  ([0x30BB], [0x30BC]),
  ([0x30BD], [0x30BE]),
  ([0x30BF], [0x30C0]),
  ([0x30C1], [0x30C2]),
  ([0x30C4], [0x30C5]),
  ([0x30C6], [0x30C7]),
  ([0x30C8], [0x30C9]),
  ([0x30CF], [0x30D0]),
  ([0x30D2], [0x30D3]),
  ([0x30D5], [0x30D6]),
  ([0x30D8], [0x30D9]),
  ([0x30DB], [0x30DC]),
  ([0x30EF], [0x30F7]),
  ([0x30A4], [0x30F8]),
  ([0x30A6], [0x30F4]),
  ([0x30A8], [0x30F9]),
  ([0x30FA], [0x30F2]),
  ([0x309D], [0x309E]),
  ([0x30FD], [0x30FE])
]

/-- The fourteen replacement steps of the conv closure in convertProlongedSoundMarks (jaco.ts), in source order: each is a character class paired with the replacement kana that follows a retained class character in place of U+30FC. -/
def prolongedSoundSteps : List (List Nat × Nat) := [
  ([0x3042, 0x3041, 0x304B, 0x3095, 0x304C, 0x3055, 0x3056, 0x305F, 0x3060, 0x306A, 0x306F, 0x3070, 0x3071, 0x307E, 0x3084, 0x3083, 0x3089, 0x308F, 0x308E], 0x3042),
  ([0x3044, 0x3043, 0x304D, 0x304E, 0x3057, 0x3058, 0x3061, 0x3062, 0x306B, 0x3072, 0x3073, 0x3074, 0x307F, 0x308A, 0x3090], 0x3044),
  ([0x3046, 0x3045, 0x3094, 0x304F, 0x3050, 0x3059, 0x305A, 0x3064, 0x3065, 0x306C, 0x3075, 0x3076, 0x3077, 0x3080, 0x3086, 0x3085, 0x308B], 0x3046),
  ([0x3048, 0x3047, 0x3051, 0x3096, 0x3052, 0x305B, 0x305C, 0x3066, 0x3067, 0x306D, 0x3078, 0x3079, 0x307A, 0x3081, 0x308C, 0x3091], 0x3048),
  ([0x304A, 0x3049, 0x3053, 0x3054, 0x305D, 0x305E, 0x3068, 0x3069, 0x306E, 0x307B, 0x307C, 0x307D, 0x3082, 0x3088, 0x3087, 0x308D, 0x3092], 0x304A),
  ([0x3093], 0x3093),
  ([0x3063], 0x3063),
  ([0x30A2, 0x30A1, 0x30AB, 0x30F5, 0x30AC, 0x30B5, 0x30B6, 0x30BF, 0x30C0, 0x30CA, 0x30CF, 0x30D0, 0x30D1, 0x30DE, 0x30E4, 0x30E3, 0x30E9, 0x30EF, 0x30EE, 0x30F7], 0x30A2),
  ([0x30A4, 0x30A3, 0x30AD, 0x30AE, 0x30B7, 0x30B8, 0x30C1, 0x30C2, 0x30CB, 0x30D2, 0x30D3, 0x30D4, 0x30DF, 0x30EA, 0x30F0, 0x30F8], 0x30A4),
  ([0x30A6, 0x30A5, 0x30F4, 0x30AF, 0x30B0, 0x30B9, 0x30BA, 0x30C4, 0x30C5, 0x30CC, 0x30D5, 0x30D6, 0x30D7, 0x30E0, 0x30E6, 0x30E5, 0x30EB], 0x30A6),
  ([0x30A8, 0x30A7, 0x30B1, 0x30F6, 0x30B2, 0x30BB, 0x30BC, 0x30C6, 0x30C7, 0x30CD, 0x30D8, 0x30D9, 0x30DA, 0x30E1, 0x30EC, 0x30F1, 0x30F9], 0x30A8),
  ([0x30AA, 0x30A9, 0x30B3, 0x30B4, 0x30BD, 0x30BE, 0x30C8, 0x30C9, 0x30CE, 0x30DB, 0x30DC, 0x30DD, 0x30E2, 0x30E8, 0x30E7, 0x30ED, 0x30F2, 0x30FA], 0x30AA),
  ([0x30F3], 0x30F3),
  ([0x30C3], 0x30C3)
]

/-- The thirty voiced and semi-voiced katakana pairs of the width-conversion tables: narrow digraph paired with the wide precomposed character. -/
def voicedKatakanaPairs : List (List Nat × List Nat) := [
  ([0xFF76, 0xFF9E], [0x30AC]),
  ([0xFF77, 0xFF9E], [0x30AE]),
  ([0xFF78, 0xFF9E], [0x30B0]),
  ([0xFF79, 0xFF9E], [0x30B2]),
  ([0xFF7A, 0xFF9E], [0x30B4]),
  ([0xFF7B, 0xFF9E], [0x30B6]),
  ([0xFF7C, 0xFF9E], [0x30B8]),
  ([0xFF7D, 0xFF9E], [0x30BA]),
  ([0xFF7E, 0xFF9E], [0x30BC]),
  ([0xFF7F, 0xFF9E], [0x30BE]),
  ([0xFF80, 0xFF9E], [0x30C0]),
  ([0xFF81, 0xFF9E], [0x30C2]),
  ([0xFF82, 0xFF9E], [0x30C5]),
  ([0xFF83, 0xFF9E], [0x30C7]),
  ([0xFF84, 0xFF9E], [0x30C9]),
  ([0xFF8A, 0xFF9E], [0x30D0]),
  ([0xFF8B, 0xFF9E], [0x30D3]),
  ([0xFF8C, 0xFF9E], [0x30D6]),
  ([0xFF8D, 0xFF9E], [0x30D9]),
  ([0xFF8E, 0xFF9E], [0x30DC]),
  ([0xFF8A, 0xFF9F], [0x30D1]),
  ([0xFF8B, 0xFF9F], [0x30D4]),
  ([0xFF8C, 0xFF9F], [0x30D7]),
  ([0xFF8D, 0xFF9F], [0x30DA]),
  ([0xFF8E, 0xFF9F], [0x30DD]),
  ([0xFF9C, 0xFF9E], [0x30F7]),
  ([0xFF72, 0xFF9E], [0x30F8]),
  ([0xFF73, 0xFF9E], [0x30F4]),
  ([0xFF74, 0xFF9E], [0x30F9]),
  ([0xFF66, 0xFF9E], [0x30FA])
]

/-- The `toWideKatakana` method of jaco.ts: one replaceFromMap pass over the narrow-to-wide table. -/
def toWideKatakana (s : JStr) : JStr :=
  replaceFromMap toWideKatakanaMap s

/--
The `combinateSoundMarks` method of jaco.ts.  With the flag set it only
normalizes the spacing voicing marks to the combining ones; with the flag clear
(the default) it first performs that normalization and then applies the
base-plus-combining-mark to precomposed substitution table.
-/
def combinateSoundMarks (isConvertCombiningSoundMarks : Bool) (s : JStr) : JStr :=
  if !isConvertCombiningSoundMarks then
    replaceFromMap soundMarkCombinationMap (replaceFromMap spacingToCombiningMap s)
  else
    replaceFromMap spacingToCombiningMap s

/--
The `toHiragana` method of jaco.ts: widen narrow katakana, map the four voiced
katakana with no hiragana analog to base hiragana plus the spacing voiced mark,
shift the katakana class down by 96, and, when `isCombinate` is set, run the
full sound-mark combination.
-/
def toHiragana (isCombinate : Bool) (s : JStr) : JStr :=
  let s1 := toWideKatakana s
  let s2 := replaceFromMap archaicVoicedKatakanaMap s1
  let s3 := shiftStr inKatakanaClass (-96) s2
  if isCombinate then combinateSoundMarks false s3 else s3

/--
The `toKatakana` method of jaco.ts: optionally widen narrow katakana, collapse
the four decomposed archaic combinations (each of the three encodings of the
voiced mark) into the precomposed voiced katakana, then shift the hiragana
class up by 96.
-/
def toKatakana (toWide : Bool) (s : JStr) : JStr :=
  let s1 := if toWide then toWideKatakana s else s
  let s2 := replaceFromMap
    [([0x308F, 0x309B], [0x30F7]), ([0x308F, 0x3099], [0x30F7]), ([0x308F, 0xFF9E], [0x30F7]),
     ([0x3090, 0x309B], [0x30F8]), ([0x3090, 0x3099], [0x30F8]), ([0x3090, 0xFF9E], [0x30F8]),
     ([0x3091, 0x309B], [0x30F9]), ([0x3091, 0x3099], [0x30F9]), ([0x3091, 0xFF9E], [0x30F9]),
     ([0x3092, 0x309B], [0x30FA]), ([0x3092, 0x3099], [0x30FA]), ([0x3092, 0xFF9E], [0x30FA])] s1
  shiftStr inHiraganaClass 96 s2

/--
The `toNarrowKatakana` method of jaco.ts: optionally convert hiragana to
katakana first, normalize both encodings of the voiced mark to the narrow
voiced mark U+FF9E and of the semi-voiced mark to U+FF9F, then apply the
wide-to-narrow table.
-/
def toNarrowKatakana (fromHiragana : Bool) (s : JStr) : JStr :=
  let s0 := if fromHiragana then toKatakana true s else s
  let s1 := replaceAll [0x309B] [0xFF9E] s0
  let s2 := replaceAll [0x3099] [0xFF9E] s1
  let s3 := replaceAll [0x309C] [0xFF9F] s2
  let s4 := replaceAll [0x309A] [0xFF9F] s3
  replaceFromMap toNarrowKatakanaMap s4

/--
The `addVoicedMarks` method of jaco.ts: remove every standalone voicing mark
(the spacing, combining and narrow encodings of both the voiced and the
semi-voiced mark), then apply the base-to-voiced substitution table.
-/
def addVoicedMarks (s : JStr) : JStr :=
  let s1 := replaceAll [0x309B] [] s
  let s2 := replaceAll [0x3099] [] s1
  let s3 := replaceAll [0xFF9E] [] s2
  let s4 := replaceAll [0x309C] [] s3
  let s5 := replaceAll [0x309A] [] s4
  let s6 := replaceAll [0xFF9F] [] s5
  replaceFromMap addVoicedMarksMap s6

/--
One global replacement step of the conv closure in convertProlongedSoundMarks:
every class character directly followed by the prolonged sound mark U+30FC is
kept and the mark after it is rewritten to the step's replacement kana.
-/
def replaceProlonged (cls : JStr) (vowel : Nat) : JStr → JStr
  | [] => []
  | [c] => [c]
  | c :: d :: rest =>
    if cls.contains c && d == 0x30FC then
      c :: vowel :: replaceProlonged cls vowel rest
    else
      c :: replaceProlonged cls vowel (d :: rest)

/-- The body of the conv closure in convertProlongedSoundMarks: the fourteen replacement steps in source order. -/
def convProlonged (s : JStr) : JStr :=
  prolongedSoundSteps.foldl (fun acc step => replaceProlonged step.1 step.2 acc) s

/--
The while-loop guard of convertProlongedSoundMarks: some character of the
hiragana or katakana class is directly followed by the prolonged sound mark
U+30FC.
-/
def hasKanaProlonged : JStr → Bool
  | [] => false
  | [_] => false
  | c :: d :: rest =>
    ((inHiraganaClass c || inKatakanaClass c) && d == 0x30FC) || hasKanaProlonged (d :: rest)

/--
The while loop of convertProlongedSoundMarks, with explicit fuel: run the conv
pass while the guard pattern still matches.  The source loop has no fuel; a run
that returns `none` for every fuel value is a non-terminating execution of the
source.
-/
def convertProlongedSoundMarks (fuel : Nat) (s : JStr) : Option JStr :=
  if hasKanaProlonged s then
    match fuel with
    | 0 => none
    | f + 1 => convertProlongedSoundMarks f (convProlonged s)
  else some s

/--
A JavaScript number as the repeat-count argument sees it: not-a-number, one of
the two infinities, or a finite value (modelled as a rational, which is exact
for every count the claims mention).
-/
inductive JSNum where
  | nan : JSNum
  | posInf : JSNum
  | negInf : JSNum
  | fin (q : ℚ) : JSNum
deriving DecidableEq

/-- JavaScript `Math.max(x, 0)`: not-a-number propagates, otherwise the larger value. -/
def mathMax0 : JSNum → JSNum
  | .nan => .nan
  | .posInf => .posInf
  | .negInf => .fin 0
  | .fin q => .fin (max q 0)

/-- JavaScript `Math.floor`: not-a-number and the infinities are fixed, a finite value floors. -/
def mathFloorJ : JSNum → JSNum
  | .nan => .nan
  | .posInf => .posInf
  | .negInf => .negInf
  | .fin q => .fin (⌊q⌋ : ℤ)

/--
The `repeat` method of jaco.ts: the count is clamped below by zero and floored;
a count that is still the positive infinity is rejected with a RangeError, and
otherwise the loop `while (times--)` pushes the buffer that many times (zero
times for not-a-number, whose decrement is falsy at once) and joins.
-/
def repeatJ (times : JSNum) (s : JStr) : Except String JStr :=
  match mathFloorJ (mathMax0 times) with
  | .posInf => .error "repeat count must be less than infinity"
  | .fin q => .ok (List.flatten (List.replicate (⌊q⌋).toNat s))
  | _ => .ok []

/-- Whether an Except result is the error case. -/
def exceptIsError : Except String JStr → Bool
  | .error _ => true
  | .ok _ => false

/--
C1: the repeated re-scanning substitution of convertProlongedSoundMarks does
not terminate on every input: on the two-character input of the katakana
iteration mark U+30FD followed by the prolonged mark U+30FC, the loop guard
matches forever while the conv pass changes nothing, so the run is none for
every fuel bound.
-/
theorem convertProlongedSoundMarks_diverges :
    ∀ fuel : Nat, convertProlongedSoundMarks fuel [0x30FD, 0x30FC] = none := by
  have hg : hasKanaProlonged [0x30FD, 0x30FC] = true := by decide
  have hc : convProlonged [0x30FD, 0x30FC] = [0x30FD, 0x30FC] := by decide
  intro fuel
  induction fuel with
  | zero => simp [convertProlongedSoundMarks, hg]
  | succ f ih => rw [convertProlongedSoundMarks, hg]; simpa [hc] using ih

/--
C3: substr hands its second parameter to slice, which treats it as an end
index: substr(1, 2) on the four-character buffer abcd extracts the one
character b, whereas the specified start-plus-count semantics extract bc.
-/
theorem substr_passes_count_as_end_index :
    substr [0x61, 0x62, 0x63, 0x64] 1 (some 2) = [0x62] ∧
    substrSpec [0x61, 0x62, 0x63, 0x64] 1 (some 2) = [0x62, 0x63] ∧
    ([0x62] : JStr) ≠ [0x62, 0x63] := by decide

/--
C4 counterexample: the search for the literal x, which matches nowhere in the
buffer abc, returns 3 (the array-ized length of the whole buffer), not the
index -1 the claim requires.
-/
theorem search_no_match_counterexample :
    search [0x78] [0x61, 0x62, 0x63] = 3 ∧ ((3 : Int) ≠ -1) := by decide

/--
C5: the two API surfaces disagree on a multi-character search string: on the
three-character buffer of U+3042 U+3044 U+3046 with the two-character search
string U+3044 U+3046 and start position 0, the wrapper method returns -1
(Array.prototype.indexOf compares the search string against single array-ized
characters) while the free function returns 1.
-/
theorem indexOf_surfaces_disagree :
    indexOf [0x3042, 0x3044, 0x3046] [0x3044, 0x3046] 0 = -1 ∧
    fnIndexOf [0x3042, 0x3044, 0x3046] [0x3044, 0x3046] 0 = 1 := by decide

/--
C6: addVoicedMarks leaves the base kana U+30F2 (wo) unchanged instead of
mapping it to its voiced form U+30FA, and maps the already-voiced U+30FA back
to U+30F2: the last entry of its wa-row is reversed in the source.
-/
theorem addVoicedMarks_wo_entry_reversed :
    addVoicedMarks [0x30F2] = [0x30F2] ∧
    addVoicedMarks [0x30FA] = [0x30F2] := by decide

/--
C7 counterexample: on the input of the hiragana ka U+304B followed by the
spacing voiced mark U+309B, the combineMarks mode produces the single
precomposed character U+304C, not the kana followed by the combining mark
U+3099 that the claim requires; the other mode leaves the input unchanged.
-/
theorem toHiragana_combine_precomposes_counterexample :
    toHiragana true [0x304B, 0x309B] = [0x304C] ∧
    toHiragana false [0x304B, 0x309B] = [0x304B, 0x309B] ∧
    replaceFromMap spacingToCombiningMap (toHiragana false [0x304B, 0x309B]) = [0x304B, 0x3099] ∧
    ([0x304C] : JStr) ≠ [0x304B, 0x3099] := by decide

/--
C7 amended: the two modes of toHiragana differ exactly by the full sound-mark
combination pass, which normalizes the spacing voicing marks to the combining
ones and then precomposes every base-plus-mark pair present in the combination
table; pairs absent from the table remain as kana plus combining mark.
-/
theorem toHiragana_combine_is_soundmark_combination (s : JStr) :
    toHiragana true s = combinateSoundMarks false (toHiragana false s) := by
  simp only [toHiragana, if_true, Bool.false_eq_true, if_false]

/--
C2 counterexample: with the supplied character set containing exactly U+3042,
the buffer whose first line is the single allowed character U+3042 and whose
second line is the disallowed X still satisfies isOnly, because the multiline
anchors let the class test succeed on the first line alone; the claim requires
false since not every line consists of set characters.
-/
theorem isOnly_multiline_counterexample :
    isOnly (fun c => c == 0x3042) [0x3042, 0x0A, 0x58] = true ∧
    (([0x3042, 0x0A, 0x58] : JStr).splitOn 0x0A).all
      (fun line => line.all (fun c => c == 0x3042)) = false := by decide

/--
C2 amended: isOnly holds exactly when at least one line of the buffer (lines
delimited by U+000A) is nonempty and consists exclusively of characters of the
supplied set; a disallowed character on one line does not force the result to
false when another line passes.
-/
theorem isOnly_iff_some_line_passes (C : Nat → Bool) (s : JStr) :
    isOnly C s = true ↔ ∃ line ∈ s.splitOn 0x0A, line ≠ [] ∧ ∀ c ∈ line, C c = true := by
  simp [isOnly, List.any_eq_true, Bool.and_eq_true, Bool.not_eq_true',
    List.isEmpty_eq_false, List.all_eq_true]

/--
C8 counterexample: on the single lone high surrogate U+D800 the array-izer
produces the empty sequence, so its concatenation does not reconstruct the
string, and the surrogate-aware length 0 differs from the code-unit count 1
although the string contains no surrogate-pair character.
-/
theorem toArray_lone_surrogate_counterexample :
    (jsToArray [0xD800]).flatten ≠ [0xD800] ∧
    (jsToArray [0xD800]).any (fun ch => ch.length == 2) = false ∧
    lengthJ [0xD800] ≠ sizeJ [0xD800] := by decide

/-- The boolean prefix test agrees with the prefix relation on code-unit lists. -/
theorem isPrefixOf_eq_true_iff (l₁ l₂ : JStr) : l₁.isPrefixOf l₂ = true ↔ l₁ <+: l₂ :=
  List.isPrefixOf_iff_prefix

/-- A nonempty needle that occurs nowhere in the scanned string is never a prefix at any position, so the split-off piece is the whole string. -/
theorem beforeFirst_of_no_occurrence (needle : JStr) :
    ∀ s : JStr, ¬ needle <:+: s → beforeFirst needle s = s := by
  intro s
  induction s with
  | nil => intro _; rfl
  | cons c rest ih =>
    intro h
    rw [beforeFirst, if_neg, ih (fun hinf => h (List.infix_cons hinf))]
    intro hp
    exact h ((isPrefixOf_eq_true_iff _ _).mp hp).isInfix

/-- When the nonempty needle occurs in the scanned string, the string decomposes as the split-off piece, the needle, and a remainder. -/
theorem beforeFirst_append_of_occurrence (needle : JStr) (hne : needle ≠ []) :
    ∀ s : JStr, needle <:+: s → ∃ post, s = beforeFirst needle s ++ needle ++ post := by
  intro s
  induction s with
  | nil =>
    intro h
    exact absurd (List.infix_nil.mp h) hne
  | cons c rest ih =>
    intro h
    by_cases hp : needle.isPrefixOf (c :: rest) = true
    · obtain ⟨post, hpost⟩ := (isPrefixOf_eq_true_iff _ _).mp hp
      exact ⟨post, by rw [beforeFirst, if_pos hp]; simpa using hpost.symm⟩
    · have hrest : needle <:+: rest := by
        obtain ⟨pre, post, hdec⟩ := h
        cases pre with
        | nil =>
          exact absurd ((isPrefixOf_eq_true_iff _ _).mpr ⟨post, by simpa using hdec⟩) hp
        | cons x xs =>
          have hxs : xs ++ needle ++ post = rest := by
            have := hdec
            simp only [List.cons_append] at this
            exact (List.cons.injEq _ _ _ _ ▸ this).2
          exact ⟨xs, post, hxs⟩
      obtain ⟨post, hpost⟩ := ih hrest
      refine ⟨post, ?_⟩
      rw [beforeFirst, if_neg hp, List.cons_append, List.cons_append, ← hpost]

/-- The split-off piece is never longer than the text before any occurrence of the needle. -/
theorem beforeFirst_length_min (needle : JStr) :
    ∀ s pre post : JStr, s = pre ++ needle ++ post →
      (beforeFirst needle s).length ≤ pre.length := by
  intro s
  induction s with
  | nil => intro pre post _; simp [beforeFirst]
  | cons c rest ih =>
    intro pre post h
    by_cases hp : needle.isPrefixOf (c :: rest) = true
    · rw [beforeFirst, if_pos hp]; simp
    · rw [beforeFirst, if_neg hp]
      cases pre with
      | nil =>
        exact absurd ((isPrefixOf_eq_true_iff _ _).mpr ⟨post, by simpa using h.symm⟩) hp
      | cons x xs =>
        simp only [List.length_cons, Nat.succ_le_succ_iff]
        have hxs : rest = xs ++ needle ++ post := by
          simp only [List.cons_append] at h
          exact (List.cons.injEq _ _ _ _ ▸ h).2
        exact ih xs post hxs

/--
C4 amended: for a nonempty literal searcher, the search operation returns the
array-ized length of the text before the first occurrence: the searcher occurs
nowhere exactly when the split-off piece is the whole buffer (so a failed
search returns the buffer's array-ized length, never -1), and at any occurrence
the split-off piece followed by the searcher is a prefix of the buffer of
minimal length among all occurrences.
-/
theorem search_amended (needle s : JStr) (hne : needle ≠ []) :
    ((¬ needle <:+: s) ↔ beforeFirst needle s = s) ∧
    search needle s = lengthJ (beforeFirst needle s) ∧
    (∀ pre post, s = pre ++ needle ++ post →
      beforeFirst needle s ++ needle <+: s ∧
      (beforeFirst needle s).length ≤ pre.length) := by
  refine ⟨⟨beforeFirst_of_no_occurrence needle s, ?_⟩, rfl, ?_⟩
  · intro hbf hinf
    obtain ⟨post, hpost⟩ := beforeFirst_append_of_occurrence needle hne s hinf
    rw [hbf] at hpost
    have := congrArg List.length hpost
    simp only [List.length_append] at this
    have : needle.length = 0 := by omega
    exact hne (List.eq_nil_of_length_eq_zero this)
  · intro pre post hdec
    have hinf : needle <:+: s := ⟨pre, post, hdec.symm⟩
    obtain ⟨post2, hpost2⟩ := beforeFirst_append_of_occurrence needle hne s hinf
    exact ⟨⟨post2, hpost2.symm⟩,
      beforeFirst_length_min needle s pre post hdec⟩

/--
C4 amended witness: the amended theorem applied to the searcher bc and the
buffer abcd, whose hypotheses hold there.
-/
theorem search_amended_witness :
    (¬ ([0x62, 0x63] : JStr) <:+: [0x61, 0x62, 0x63, 0x64]) ↔
      beforeFirst [0x62, 0x63] [0x61, 0x62, 0x63, 0x64] = [0x61, 0x62, 0x63, 0x64] :=
  (search_amended [0x62, 0x63] [0x61, 0x62, 0x63, 0x64] (by decide)).1

/-- The array-izer never produces more elements than the string has code units: every element consumes one or two units and a lone surrogate consumes a unit without producing an element. -/
theorem jsToArray_length_le : ∀ s : JStr, (jsToArray s).length ≤ s.length := by
  intro s
  induction s using jsToArray.induct with
  | case1 => simp [jsToArray]
  | case2 c h => simp [jsToArray, h]
  | case3 c h => rw [jsToArray]; split <;> simp
  | case4 c d rest h1 h2 ih =>
    simp only [jsToArray, if_pos h1, if_pos h2, List.length_cons]; omega
  | case5 c d rest h1 h2 ih =>
    simp only [jsToArray, if_pos h1, if_neg h2, List.length_cons] at ih ⊢; omega
  | case6 c d rest h1 h2 ih =>
    simp only [jsToArray, if_neg h1, if_pos h2, List.length_cons] at ih ⊢; omega
  | case7 c d rest h1 h2 ih =>
    simp only [jsToArray, if_neg h1, if_neg h2, List.length_cons] at ih ⊢; omega

/--
C8 amended: on every well-formed UTF-16 string (no lone surrogate) the
concatenation of the array-ized sequence reconstructs the string exactly, the
surrogate-aware length is at most the code-unit count, and the two are equal
exactly when the string contains no surrogate unit, that is, no astral
character.
-/
theorem toArray_spec_of_wellFormed (s : JStr) (hs : wellFormedUtf16 s = true) :
    (jsToArray s).flatten = s ∧
    lengthJ s ≤ sizeJ s ∧
    (lengthJ s = sizeJ s ↔
      s.all (fun c => !isHighSurrogate c && !isLowSurrogate c) = true) := by
  revert hs
  induction s using wellFormedUtf16.induct with
  | case1 => intro _; exact ⟨rfl, le_refl _, by simp [lengthJ, sizeJ, jsToArray]⟩
  | case2 c =>
    intro hs
    rw [wellFormedUtf16] at hs
    refine ⟨?_, ?_, ?_⟩ <;> simp [jsToArray, lengthJ, sizeJ, hs]
  | case3 c d rest h1 ih =>
    intro hs
    rw [wellFormedUtf16, if_pos h1, Bool.and_eq_true] at hs
    obtain ⟨hd, hrest⟩ := hs
    obtain ⟨ihj, ihle, ihiff⟩ := ih hrest
    have harr : jsToArray (c :: d :: rest) = [c, d] :: jsToArray rest := by
      rw [jsToArray, if_pos h1, if_pos hd]
    refine ⟨?_, ?_, ?_⟩
    · rw [harr]; simp [ihj]
    · simp only [lengthJ, sizeJ, harr, List.length_cons] at ihle ⊢; omega
    · constructor
      · intro hlen
        exfalso
        simp only [lengthJ, sizeJ, harr, List.length_cons] at hlen ihle
        omega
      · intro hall
        simp only [List.all_cons, Bool.and_eq_true, Bool.not_eq_true'] at hall
        rw [h1] at hall
        simp at hall
  | case4 c d rest h1 ih =>
    intro hs
    rw [wellFormedUtf16, if_neg h1, Bool.and_eq_true] at hs
    obtain ⟨hc, hrest⟩ := hs
    obtain ⟨ihj, ihle, ihiff⟩ := ih hrest
    have hc2 : isLowSurrogate c = false := by
      cases h : isLowSurrogate c
      · rfl
      · rw [h] at hc; simp at hc
    have h1b : isHighSurrogate c = false := by
      cases h : isHighSurrogate c
      · rfl
      · exact absurd h h1
    have harr : jsToArray (c :: d :: rest) = [c] :: jsToArray (d :: rest) := by
      rw [jsToArray, if_neg h1, if_neg (by rw [hc2]; exact Bool.false_ne_true)]
    refine ⟨?_, ?_, ?_⟩
    · rw [harr]; simp [ihj]
    · simp only [lengthJ, sizeJ, harr, List.length_cons] at ihle ⊢; omega
    · simp only [lengthJ, sizeJ, harr, List.length_cons, List.all_cons, h1b, hc2,
        Bool.not_false, Bool.true_and, Nat.add_right_cancel_iff]
      exact ihiff

/--
C8 amended witness: the amended theorem applied to the well-formed string made
of one astral character (a surrogate pair) followed by the letter a.
-/
theorem toArray_spec_of_wellFormed_witness :
    (jsToArray [0xD842, 0xDFB7, 0x61]).flatten = [0xD842, 0xDFB7, 0x61] ∧
    lengthJ [0xD842, 0xDFB7, 0x61] ≤ sizeJ [0xD842, 0xDFB7, 0x61] ∧
    (lengthJ [0xD842, 0xDFB7, 0x61] = sizeJ [0xD842, 0xDFB7, 0x61] ↔
      ([0xD842, 0xDFB7, 0x61] : JStr).all
        (fun c => !isHighSurrogate c && !isLowSurrogate c) = true) :=
  toArray_spec_of_wellFormed [0xD842, 0xDFB7, 0x61] (by decide)

/--
C9: for every one of the thirty voiced and semi-voiced katakana pairs of the
width-conversion tables, widening the narrow digraph and then narrowing
reproduces the digraph, and narrowing the wide precomposed character and then
widening reproduces the precomposed character.
-/
theorem voicedKatakana_roundtrip (p : JStr × JStr) (hp : p ∈ voicedKatakanaPairs) :
    toNarrowKatakana false (toWideKatakana p.1) = p.1 ∧
    toWideKatakana (toNarrowKatakana false p.2) = p.2 := by
  revert p
  decide

/--
C9 witness: the round trip at the first pair, the voiced ka digraph and the
precomposed voiced ka.
-/
theorem voicedKatakana_roundtrip_witness :
    toNarrowKatakana false (toWideKatakana [0xFF76, 0xFF9E]) = [0xFF76, 0xFF9E] ∧
    toWideKatakana (toNarrowKatakana false [0x30AC]) = [0x30AC] :=
  voicedKatakana_roundtrip ([0xFF76, 0xFF9E], [0x30AC]) (by decide)

/--
C10: repeat fails exactly on the positive-infinite count, and on every finite
count it repeats the buffer the floored count of times, a negative count
giving the empty result via the clamp of the floored value at zero.
-/
theorem repeat_spec (s : JStr) :
    (∀ t : JSNum, exceptIsError (repeatJ t s) = true ↔ t = JSNum.posInf) ∧
    (∀ q : ℚ, repeatJ (JSNum.fin q) s =
      Except.ok (List.flatten (List.replicate (⌊q⌋).toNat s))) := by
  constructor
  · intro t
    cases t with
    | nan => simp [repeatJ, mathMax0, mathFloorJ, exceptIsError]
    | posInf => simp [repeatJ, mathMax0, mathFloorJ, exceptIsError]
    | negInf => simp [repeatJ, mathMax0, mathFloorJ, exceptIsError]
    | fin q => simp [repeatJ, mathMax0, mathFloorJ, exceptIsError]
  · intro q
    simp only [repeatJ, mathMax0, mathFloorJ, Int.floor_intCast]
    have h2 : (⌊max q 0⌋).toNat = (⌊q⌋).toNat := by
      rcases le_or_lt 0 q with hq | hq
      · rw [max_eq_left hq]
      · rw [max_eq_right hq.le, Int.floor_zero, Int.toNat_of_nonpos (Int.floor_nonpos hq.le)]
        rfl
    rw [h2]
